import Mathlib

/-!
Shallow embedding of `src/main.rs` (SafeBackup, a local file-backup helper).

The program state is modelled explicitly: a filesystem mapping names to
entries, the append-only log (as the list of action texts, timestamps
abstracted away), and an optional injected I/O failure of the log file
(so that behaviour under logging failures can be stated).  Each Rust
function becomes a state-passing Lean function returning
`Except BackupError _ × SysState`, mirroring the source's early returns
and its `?` operator (which propagates `log_action` failures through
`From<io::Error> for BackupError`, i.e. as `IoError`).
-/

/-- Model of `std::io::Error` values that the standard-library calls used by
the program can produce (only the distinctions the program can observe). -/
inductive IoErr where
  | notFound
  | permissionDenied
  | isDirectory
  | other (msg : String)
deriving DecidableEq

/-- `enum BackupError` from src/main.rs lines 14–20. -/
inductive BackupError where
  | InvalidFilename (msg : String)
  | FileNotFound (msg : String)
  | IoError (err : IoErr)
  | PathTraversal (msg : String)
  | PermissionDenied (msg : String)
deriving DecidableEq

/-- `impl From<io::Error> for BackupError` (src/main.rs lines 34–38):
every underlying I/O error is wrapped as `IoError`. -/
def BackupError.ofIoErr (e : IoErr) : BackupError := BackupError.IoError e

/-- A filesystem entry: a regular file with byte content, or some other
kind of entry (directory etc.), which `Path::is_file` reports as false and
on which `File::create` / `fs::remove_file` fail and reads fail. -/
inductive Entry where
  | file (content : List Nat)
  | other
deriving DecidableEq

/-- The mutable world the program touches: the filesystem, the log file's
lines (action texts; the `[timestamp] ` prefix is abstracted), and an
optional injected failure for the log file (`none` = logging works,
`some e` = every `log_action` call fails with `e`). -/
structure SysState where
  fs : String → Option Entry
  log : List String
  logErr : Option IoErr

/-- `log_action` (src/main.rs lines 41–52): appends one line to the log,
or fails with the injected I/O error. -/
def log_action (st : SysState) (action : String) : Except IoErr Unit × SysState :=
  match st.logErr with
  | some e => (.error e, st)
  | none => (.ok (), { st with log := st.log ++ [action] })

/-- Substring search over character lists: does `pat` occur contiguously
inside the second list?  Models Rust `str::contains` for ASCII patterns. -/
def hasSubstr (pat : List Char) : List Char → Bool
  | [] => pat.isEmpty
  | c :: tl => pat.isPrefixOf (c :: tl) || hasSubstr pat tl

/-- Rust `filename.contains(pat)` for the string patterns used by the code. -/
def containsSub (s pat : String) : Bool := hasSubstr pat.data s.data

/-- Membership in the character class `[a-zA-Z0-9._-]` of the validation
regex (src/main.rs line 68). -/
def isValidNameChar (c : Char) : Bool :=
  ('a' ≤ c && c ≤ 'z') || ('A' ≤ c && c ≤ 'Z') || ('0' ≤ c && c ≤ '9')
    || c = '.' || c = '_' || c = '-'

/-- `Regex::new(r"^[a-zA-Z0-9._-]+$").is_match(filename)`: the whole string
is one or more characters of the class. -/
def regexIsMatch (s : String) : Bool := !s.data.isEmpty && s.data.all isValidNameChar

/-- Number of bytes of one character in UTF-8 (the encoding of Rust `str`). -/
def charUtf8Len (c : Char) : Nat :=
  if c.toNat ≤ 0x7F then 1 else if c.toNat ≤ 0x7FF then 2
  else if c.toNat ≤ 0xFFFF then 3 else 4

/-- Rust `str::len`: the UTF-8 byte length of the string (src/main.rs
line 76 compares it with 255). -/
def rustLen (s : String) : Nat := (s.data.map charUtf8Len).sum

/-- `validate_filename` (src/main.rs lines 55–83).  The checks run in
source order with early returns; the `?` on `log_action` on the traversal
branch turns a logging failure into an `IoError` result. -/
def validate_filename (st : SysState) (filename : String) :
    Except BackupError Unit × SysState :=
  if filename = "" then
    (.error (.InvalidFilename "Filename cannot be empty"), st)
  else if containsSub filename ".." || containsSub filename "/"
      || containsSub filename "\\" then
    match log_action st ("Security: Path traversal attempt blocked - " ++ filename) with
    | (.error e, st1) => (.error (.ofIoErr e), st1)
    | (.ok _, st1) => (.error (.PathTraversal filename), st1)
  else if !regexIsMatch filename then
    (.error (.InvalidFilename "Filename contains invalid characters"), st)
  else if rustLen filename > 255 then
    (.error (.InvalidFilename "Filename too long (max 255 characters)"), st)
  else
    (.ok (), st)

/-- Update point in the filesystem map. -/
def fsSet (fs : String → Option Entry) (k : String) (v : Option Entry) :
    String → Option Entry :=
  fun k2 => if k2 = k then v else fs k2

/-- `backup_file` (src/main.rs lines 86–128): validate, check existence,
check regular file, `File::open` source / `File::create` destination,
`io::copy`, flush, log success.  `File::create` on a non-regular existing
entry (a directory) fails and surfaces as `IoError`; the success log line
carries the byte count `io::copy` returned. -/
def backup_file (st : SysState) (filename : String) :
    Except BackupError Unit × SysState :=
  match validate_filename st filename with
  | (.error e, st1) => (.error e, st1)
  | (.ok _, st1) =>
    match st1.fs filename with
    | none =>
      match log_action st1 ("Backup failed: File not found - " ++ filename) with
      | (.error e, st2) => (.error (.ofIoErr e), st2)
      | (.ok _, st2) => (.error (.FileNotFound filename), st2)
    | some .other =>
      match log_action st1 ("Backup failed: Not a regular file - " ++ filename) with
      | (.error e, st2) => (.error (.ofIoErr e), st2)
      | (.ok _, st2) => (.error (.InvalidFilename "Target is not a regular file"), st2)
    | some (.file content) =>
      let backup_name := filename ++ ".bak"
      match st1.fs backup_name with
      | some .other => (.error (.ofIoErr .isDirectory), st1)
      | _ =>
        let st2 : SysState :=
          { st1 with fs := fsSet st1.fs backup_name (some (.file content)) }
        let bytes_copied := content.length
        match log_action st2 ("Backup successful: " ++ filename ++ " -> "
            ++ backup_name ++ " (" ++ toString bytes_copied ++ " bytes)") with
        | (.error e, st3) => (.error (.ofIoErr e), st3)
        | (.ok _, st3) => (.ok (), st3)

/-- `restore_file` (src/main.rs lines 131–165): validate, check that
`<filename>.bak` exists (no check at all on `filename` itself),
`File::open` the backup / `File::create` the target, `io::copy`, flush,
log success with the byte count.  `File::create` truncates the target at
once, so a read failure from a non-regular backup entry leaves the target
as an empty file. -/
def restore_file (st : SysState) (filename : String) :
    Except BackupError Unit × SysState :=
  match validate_filename st filename with
  | (.error e, st1) => (.error e, st1)
  | (.ok _, st1) =>
    let backup_name := filename ++ ".bak"
    match st1.fs backup_name with
    | none =>
      match log_action st1 ("Restore failed: Backup not found - " ++ backup_name) with
      | (.error e, st2) => (.error (.ofIoErr e), st2)
      | (.ok _, st2) => (.error (.FileNotFound backup_name), st2)
    | some .other =>
      match st1.fs filename with
      | some .other => (.error (.ofIoErr .isDirectory), st1)
      | _ =>
        (.error (.ofIoErr .isDirectory),
          { st1 with fs := fsSet st1.fs filename (some (.file [])) })
    | some (.file content) =>
      match st1.fs filename with
      | some .other => (.error (.ofIoErr .isDirectory), st1)
      | _ =>
        let st2 : SysState :=
          { st1 with fs := fsSet st1.fs filename (some (.file content)) }
        let bytes_copied := content.length
        match log_action st2 ("Restore successful: " ++ backup_name ++ " -> "
            ++ filename ++ " (" ++ toString bytes_copied ++ " bytes)") with
        | (.error e, st3) => (.error (.ofIoErr e), st3)
        | (.ok _, st3) => (.ok (), st3)

/-- Rendering of an underlying I/O error in a log message (Rust `{}` on
`io::Error`; the exact text is immaterial to the program's control flow). -/
def ioErrText : IoErr → String
  | .notFound => "entity not found"
  | .permissionDenied => "permission denied"
  | .isDirectory => "is a directory"
  | .other msg => msg

/-- Rust `str::trim` applied to the confirmation line: strip leading and
trailing whitespace characters. -/
def rustTrim (s : String) : String :=
  ⟨((s.data.dropWhile Char.isWhitespace).reverse.dropWhile Char.isWhitespace).reverse⟩

/-- Rust `str::to_lowercase` on the confirmation line (ASCII case mapping,
which is all the comparison with `"yes"` can observe). -/
def rustLowercase (s : String) : String := ⟨s.data.map Char.toLower⟩

/-- `delete_file` (src/main.rs lines 168–205): validate, check existence,
prompt (the operator's reply is passed in as `confirm_line`), and delete
only when the reply, trimmed and lower-cased, equals `"yes"`; any other
reply logs a cancellation and returns `Ok`.  `fs::remove_file` fails on a
non-regular entry; that failure is logged and wrapped by `From`, i.e. as
`IoError`. -/
def delete_file (st : SysState) (filename : String) (confirm_line : String) :
    Except BackupError Unit × SysState :=
  match validate_filename st filename with
  | (.error e, st1) => (.error e, st1)
  | (.ok _, st1) =>
    match st1.fs filename with
    | none =>
      match log_action st1 ("Delete failed: File not found - " ++ filename) with
      | (.error e, st2) => (.error (.ofIoErr e), st2)
      | (.ok _, st2) => (.error (.FileNotFound filename), st2)
    | some entry =>
      let confirm := rustLowercase (rustTrim confirm_line)
      if confirm = "yes" then
        match entry with
        | .file _ =>
          let st2 : SysState := { st1 with fs := fsSet st1.fs filename none }
          match log_action st2 ("Delete successful: " ++ filename) with
          | (.error e, st3) => (.error (.ofIoErr e), st3)
          | (.ok _, st3) => (.ok (), st3)
        | .other =>
          match log_action st1 ("Delete failed: " ++ filename ++ " - "
              ++ ioErrText .isDirectory) with
          | (.error e, st2) => (.error (.ofIoErr e), st2)
          | (.ok _, st2) => (.error (.ofIoErr .isDirectory), st2)
      else
        match log_action st1 ("Delete cancelled by user: " ++ filename) with
        | (.error e, st2) => (.error (.ofIoErr e), st2)
        | (.ok _, st2) => (.ok (), st2)

/-- Mutation step of the round-trip scenario of the spec: overwrite one
file's content in place (the operator editing `F` between backup and
restore). -/
def mutateContent (st : SysState) (name : String) (c2 : List Nat) : SysState :=
  { st with fs := fsSet st.fs name (some (.file c2)) }

/-- Discriminator: did the operation end in an `InvalidFilename` rejection? -/
def isInvalidFilenameResult : Except BackupError Unit × SysState → Bool
  | (.error (.InvalidFilename _), _) => true
  | _ => false

/-- Discriminator: did the operation end in a `PermissionDenied` rejection? -/
def isPermDenied : Except BackupError Unit × SysState → Bool
  | (.error (.PermissionDenied _), _) => true
  | _ => false

/-- A 256-character name consisting solely of forward slashes. -/
def slashes256 : String := ⟨List.replicate 256 '/'⟩

/-- A 256-character name consisting solely of the letter a. -/
def aas256 : String := ⟨List.replicate 256 'a'⟩

/-- An empty world whose logger works. -/
def st0 : SysState := { fs := fun _ => none, log := [], logErr := none }

/-- An empty world whose log file cannot be written. -/
def stBadLog : SysState :=
  { fs := fun _ => none, log := [], logErr := some (.other "disk full") }

/-- A world holding one regular file `data.txt` with bytes `[1, 2, 3]`. -/
def stData : SysState :=
  { fs := fun k => if k = "data.txt" then some (.file [1, 2, 3]) else none
    log := []
    logErr := none }

/-- A world holding only a backup artifact `data.txt.bak` with bytes `[7, 8]`. -/
def stBakOnly : SysState :=
  { fs := fun k => if k = "data.txt.bak" then some (.file [7, 8]) else none
    log := []
    logErr := none }


/-! ### Helper lemmas about the validation primitives -/

theorem ne_empty_of_hasSubstr {s : String} {c : Char} {pat : List Char}
    (h : hasSubstr (c :: pat) s.data = true) : s ≠ "" := by
  intro he
  subst he
  simp [hasSubstr] at h

theorem not_hasSubstr_singleton {p : Char → Bool} {c : Char} (hc : p c = false) :
    ∀ l : List Char, l.all p = true → hasSubstr [c] l = false := by
  intro l
  induction l with
  | nil => intro _; rfl
  | cons a tl ih =>
    intro hall
    simp only [List.all_cons, Bool.and_eq_true] at hall
    have hca : (c == a) = false := by
      cases hv : (c == a)
      · rfl
      · have : c = a := beq_iff_eq.mp hv
        subst this
        simp [hall.1] at hc
    simp [hasSubstr, List.isPrefixOf, hca, ih hall.2]

theorem valid_toNat_le {c : Char} (h : isValidNameChar c = true) : c.toNat ≤ 0x7F := by
  simp only [isValidNameChar, Bool.or_eq_true, Bool.and_eq_true, decide_eq_true_eq] at h
  rcases h with ((((⟨_, h2⟩ | ⟨_, h2⟩) | ⟨_, h2⟩) | h2) | h2) | h2
  · have h3 : c.toNat ≤ 122 := h2
    omega
  · have h3 : c.toNat ≤ 90 := h2
    omega
  · have h3 : c.toNat ≤ 57 := h2
    omega
  · subst h2; decide
  · subst h2; decide
  · subst h2; decide

theorem charUtf8Len_of_valid {c : Char} (h : isValidNameChar c = true) :
    charUtf8Len c = 1 := by
  simp [charUtf8Len, valid_toNat_le h]

theorem rustLen_of_valid {s : String} (h : s.data.all isValidNameChar = true) :
    rustLen s = s.length := by
  obtain ⟨l⟩ := s
  have h' : l.all isValidNameChar = true := h
  clear h
  show (l.map charUtf8Len).sum = l.length
  induction l with
  | nil => rfl
  | cons a tl ih =>
    simp only [List.all_cons, Bool.and_eq_true] at h'
    simp only [List.map_cons, List.sum_cons, List.length_cons,
      charUtf8Len_of_valid h'.1, ih h'.2]
    omega

theorem ne_empty_of_traversal {s : String}
    (h : (containsSub s ".." || containsSub s "/" || containsSub s "\\") = true) :
    s ≠ "" := by
  simp only [Bool.or_eq_true] at h
  rcases h with (h | h) | h
  · exact @ne_empty_of_hasSubstr s '.' ['.'] h
  · exact @ne_empty_of_hasSubstr s '/' [] h
  · exact @ne_empty_of_hasSubstr s '\\' [] h

theorem validate_traversal_branch {st : SysState} {s : String}
    (h : (containsSub s ".." || containsSub s "/" || containsSub s "\\") = true) :
    validate_filename st s =
      match log_action st ("Security: Path traversal attempt blocked - " ++ s) with
      | (.error e, st1) => (.error (.ofIoErr e), st1)
      | (.ok _, st1) => (.error (.PathTraversal s), st1) := by
  unfold validate_filename
  rw [if_neg (ne_empty_of_traversal h)]
  simp only [h]
  rfl

theorem validate_ok_eval {s : String} (h1 : s ≠ "")
    (h2 : (containsSub s ".." || containsSub s "/" || containsSub s "\\") = false)
    (h3 : regexIsMatch s = true) (h4 : rustLen s ≤ 255) (st : SysState) :
    validate_filename st s = (.ok (), st) := by
  unfold validate_filename
  rw [if_neg h1]
  simp only [h2, h3]
  simp only [Bool.not_true, Bool.false_eq_true, if_false, gt_iff_lt]
  rw [if_neg (by omega)]

theorem validate_ok_conditions {st : SysState} {s : String}
    (h : (validate_filename st s).1 = .ok ()) :
    s ≠ "" ∧ (containsSub s ".." || containsSub s "/" || containsSub s "\\") = false
      ∧ regexIsMatch s = true ∧ rustLen s ≤ 255 := by
  unfold validate_filename at h
  by_cases h1 : s = ""
  · rw [if_pos h1] at h
    simp at h
  · rw [if_neg h1] at h
    by_cases h2 : (containsSub s ".." || containsSub s "/" || containsSub s "\\") = true
    · simp only [h2, if_true] at h
      rcases hl : log_action st ("Security: Path traversal attempt blocked - " ++ s)
        with ⟨r, st1⟩
      rw [hl] at h
      cases r <;> simp at h
    · simp only [Bool.not_eq_true] at h2
      simp only [h2, Bool.false_eq_true, if_false] at h
      by_cases h3 : regexIsMatch s = true
      · simp only [h3, Bool.not_true, Bool.false_eq_true, if_false] at h
        by_cases h4 : rustLen s > 255
        · simp [h4] at h
        · exact ⟨h1, h2, h3, by omega⟩
      · simp only [Bool.not_eq_true] at h3
        simp [h3] at h

theorem validate_ok_state_free {st : SysState} {s : String}
    (h : (validate_filename st s).1 = .ok ()) (st' : SysState) :
    validate_filename st' s = (.ok (), st') := by
  obtain ⟨h1, h2, h3, h4⟩ := validate_ok_conditions h
  exact validate_ok_eval h1 h2 h3 h4 st'

theorem append_bak_ne (s : String) : s ++ ".bak" ≠ s := by
  intro h
  have hl := congrArg String.length h
  rw [String.length_append] at hl
  have h4 : (".bak" : String).length = 4 := rfl
  omega

theorem ne_append_bak (s : String) : s ≠ s ++ ".bak" :=
  fun h => append_bak_ne s h.symm

theorem fsSet_same (fs : String → Option Entry) (k : String) (v : Option Entry) :
    fsSet fs k v k = v := by
  simp [fsSet]

theorem fsSet_ne (fs : String → Option Entry) (k : String) (v : Option Entry)
    {k2 : String} (h : k2 ≠ k) : fsSet fs k v k2 = fs k2 := by
  simp [fsSet, h]

theorem log_action_fs_eq (st : SysState) (a : String) : (log_action st a).2.fs = st.fs := by
  unfold log_action
  rcases h : st.logErr with _ | e <;> simp [h]

theorem validate_fs_eq (st : SysState) (s : String) :
    (validate_filename st s).2.fs = st.fs := by
  unfold validate_filename
  split
  · rfl
  split
  · rcases hl : log_action st ("Security: Path traversal attempt blocked - " ++ s)
      with ⟨r, st1⟩
    have h2 := log_action_fs_eq st ("Security: Path traversal attempt blocked - " ++ s)
    rw [hl] at h2
    cases r <;> simpa using h2
  split
  · rfl
  split
  · rfl
  · rfl

theorem backup_success_eval {st : SysState} {name : String} {c : List Nat}
    (hlog : st.logErr = none)
    (hok : (validate_filename st name).1 = .ok ())
    (hfile : st.fs name = some (.file c))
    (hbak : st.fs (name ++ ".bak") ≠ some .other) :
    backup_file st name =
      (.ok (),
       { st with
         fs := fsSet st.fs (name ++ ".bak") (some (.file c))
         log := st.log ++ ["Backup successful: " ++ name ++ " -> " ++ (name ++ ".bak")
           ++ " (" ++ toString c.length ++ " bytes)"] }) := by
  have hv := validate_ok_state_free hok st
  unfold backup_file
  rw [hv]
  simp only [hfile]
  rcases hb : st.fs (name ++ ".bak") with _ | entry
  · simp only [log_action, hlog]
  · cases entry with
    | file d => simp only [log_action, hlog]
    | other => exact absurd hb hbak

theorem restore_success_eval {st : SysState} {s : String} {c : List Nat}
    (hlog : st.logErr = none)
    (hok : (validate_filename st s).1 = .ok ())
    (hbak : st.fs (s ++ ".bak") = some (.file c))
    (htgt : st.fs s = none ∨ ∃ d, st.fs s = some (.file d)) :
    restore_file st s =
      (.ok (),
       { st with
         fs := fsSet st.fs s (some (.file c))
         log := st.log ++ ["Restore successful: " ++ (s ++ ".bak") ++ " -> " ++ s
           ++ " (" ++ toString c.length ++ " bytes)"] }) := by
  have hv := validate_ok_state_free hok st
  unfold restore_file
  rw [hv]
  simp only [hbak]
  rcases htgt with h | ⟨d, h⟩ <;> simp only [h] <;> simp [log_action, hlog]

theorem backup_fs_shape (st : SysState) (s : String) :
    (backup_file st s).2.fs = st.fs ∨
    ∃ c, (backup_file st s).2.fs = fsSet st.fs (s ++ ".bak") (some (.file c)) := by
  unfold backup_file
  rcases hv : validate_filename st s with ⟨r, st1⟩
  have h1 : st1.fs = st.fs := by
    have h := validate_fs_eq st s
    rw [hv] at h
    exact h
  cases r with
  | error e => exact .inl h1
  | ok u =>
    cases u
    rcases hf : st1.fs s with _ | entry
    · left
      rcases hl : log_action st1 ("Backup failed: File not found - " ++ s) with ⟨rl, st2⟩
      have h2 := log_action_fs_eq st1 ("Backup failed: File not found - " ++ s)
      rw [hl] at h2
      cases rl <;> simp only [hf, hl] <;> simpa [h1] using h2
    · cases entry with
      | other =>
        left
        rcases hl : log_action st1 ("Backup failed: Not a regular file - " ++ s)
          with ⟨rl, st2⟩
        have h2 := log_action_fs_eq st1 ("Backup failed: Not a regular file - " ++ s)
        rw [hl] at h2
        cases rl <;> simp only [hf, hl] <;> simpa [h1] using h2
      | file c =>
        rcases hb : st1.fs (s ++ ".bak") with _ | entry2
        · right
          refine ⟨c, ?_⟩
          rcases hl : log_action
              { st1 with fs := fsSet st1.fs (s ++ ".bak") (some (.file c)) }
              ("Backup successful: " ++ s ++ " -> " ++ (s ++ ".bak")
                ++ " (" ++ toString c.length ++ " bytes)") with ⟨rl, st2⟩
          have h2 := log_action_fs_eq
              { st1 with fs := fsSet st1.fs (s ++ ".bak") (some (.file c)) }
              ("Backup successful: " ++ s ++ " -> " ++ (s ++ ".bak")
                ++ " (" ++ toString c.length ++ " bytes)")
          rw [hl] at h2
          cases rl <;> simp only [hf, hb, hl] <;> simp only at h2 <;> simp [h2, h1]
        · cases entry2 with
          | other =>
            left
            simp only [hf, hb]
            exact h1
          | file d =>
            right
            refine ⟨c, ?_⟩
            rcases hl : log_action
                { st1 with fs := fsSet st1.fs (s ++ ".bak") (some (.file c)) }
                ("Backup successful: " ++ s ++ " -> " ++ (s ++ ".bak")
                  ++ " (" ++ toString c.length ++ " bytes)") with ⟨rl, st2⟩
            have h2 := log_action_fs_eq
                { st1 with fs := fsSet st1.fs (s ++ ".bak") (some (.file c)) }
                ("Backup successful: " ++ s ++ " -> " ++ (s ++ ".bak")
                  ++ " (" ++ toString c.length ++ " bytes)")
            rw [hl] at h2
            cases rl <;> simp only [hf, hb, hl] <;> simp only at h2 <;> simp [h2, h1]

theorem backup_frame_aux (st : SysState) (s : String) {k : String}
    (hk : k ≠ s ++ ".bak") : (backup_file st s).2.fs k = st.fs k := by
  rcases backup_fs_shape st s with h | ⟨c, h⟩
  · rw [h]
  · rw [h, fsSet_ne _ _ _ hk]

theorem validate_no_pd (st : SysState) (s : String) :
    isPermDenied (validate_filename st s) = false := by
  unfold validate_filename
  split
  · rfl
  split
  · rcases hl : log_action st ("Security: Path traversal attempt blocked - " ++ s)
      with ⟨r, st1⟩
    cases r <;> rfl
  split
  · rfl
  split
  · rfl
  · rfl

theorem backup_no_pd (st : SysState) (s : String) :
    isPermDenied (backup_file st s) = false := by
  unfold backup_file
  rcases hv : validate_filename st s with ⟨r, st1⟩
  have hvp := validate_no_pd st s
  rw [hv] at hvp
  cases r with
  | error e => exact hvp
  | ok u =>
    cases u
    rcases hf : st1.fs s with _ | entry
    · simp only [hf]
      rcases hl : log_action st1 ("Backup failed: File not found - " ++ s) with ⟨rl, st2⟩
      cases rl <;> simp only [hl] <;> rfl
    · cases entry with
      | other =>
        simp only [hf]
        rcases hl : log_action st1 ("Backup failed: Not a regular file - " ++ s)
          with ⟨rl, st2⟩
        cases rl <;> simp only [hl] <;> rfl
      | file c =>
        simp only [hf]
        rcases hb : st1.fs (s ++ ".bak") with _ | entry2
        · simp only [hb]
          rcases hl : log_action
              { st1 with fs := fsSet st1.fs (s ++ ".bak") (some (.file c)) }
              ("Backup successful: " ++ s ++ " -> " ++ (s ++ ".bak")
                ++ " (" ++ toString c.length ++ " bytes)") with ⟨rl, st2⟩
          cases rl <;> simp only [hl] <;> rfl
        · cases entry2 with
          | other =>
            simp only [hb]
            rfl
          | file d =>
            simp only [hb]
            rcases hl : log_action
                { st1 with fs := fsSet st1.fs (s ++ ".bak") (some (.file c)) }
                ("Backup successful: " ++ s ++ " -> " ++ (s ++ ".bak")
                  ++ " (" ++ toString c.length ++ " bytes)") with ⟨rl, st2⟩
            cases rl <;> simp only [hl] <;> rfl

theorem restore_no_pd (st : SysState) (s : String) :
    isPermDenied (restore_file st s) = false := by
  unfold restore_file
  rcases hv : validate_filename st s with ⟨r, st1⟩
  have hvp := validate_no_pd st s
  rw [hv] at hvp
  cases r with
  | error e => exact hvp
  | ok u =>
    cases u
    rcases hb : st1.fs (s ++ ".bak") with _ | entry
    · simp only [hb]
      rcases hl : log_action st1 ("Restore failed: Backup not found - " ++ (s ++ ".bak"))
        with ⟨rl, st2⟩
      cases rl <;> simp only [hl] <;> rfl
    · cases entry with
      | other =>
        simp only [hb]
        rcases hf : st1.fs s with _ | entry2
        · simp only [hf]
          rfl
        · cases entry2 <;> simp only [hf] <;> rfl
      | file c =>
        simp only [hb]
        rcases hf : st1.fs s with _ | entry2
        · simp only [hf]
          rcases hl : log_action
              { st1 with fs := fsSet st1.fs s (some (.file c)) }
              ("Restore successful: " ++ (s ++ ".bak") ++ " -> " ++ s
                ++ " (" ++ toString c.length ++ " bytes)") with ⟨rl, st2⟩
          cases rl <;> simp only [hl] <;> rfl
        · cases entry2 with
          | other =>
            simp only [hf]
            rfl
          | file d =>
            simp only [hf]
            rcases hl : log_action
                { st1 with fs := fsSet st1.fs s (some (.file c)) }
                ("Restore successful: " ++ (s ++ ".bak") ++ " -> " ++ s
                  ++ " (" ++ toString c.length ++ " bytes)") with ⟨rl, st2⟩
            cases rl <;> simp only [hl] <;> rfl

theorem delete_no_pd (st : SysState) (s confirm : String) :
    isPermDenied (delete_file st s confirm) = false := by
  unfold delete_file
  rcases hv : validate_filename st s with ⟨r, st1⟩
  have hvp := validate_no_pd st s
  rw [hv] at hvp
  cases r with
  | error e => exact hvp
  | ok u =>
    cases u
    rcases hf : st1.fs s with _ | entry
    · simp only [hf]
      rcases hl : log_action st1 ("Delete failed: File not found - " ++ s) with ⟨rl, st2⟩
      cases rl <;> simp only [hl] <;> rfl
    · by_cases hc : rustLowercase (rustTrim confirm) = "yes"
      · simp only [hf, if_pos hc]
        cases entry with
        | file c =>
          rcases hl : log_action { st1 with fs := fsSet st1.fs s none }
              ("Delete successful: " ++ s) with ⟨rl, st2⟩
          cases rl <;> simp only [hl] <;> rfl
        | other =>
          rcases hl : log_action st1 ("Delete failed: " ++ s ++ " - "
              ++ ioErrText .isDirectory) with ⟨rl, st2⟩
          cases rl <;> simp only [hl] <;> rfl
      · simp only [hf, if_neg hc]
        cases entry <;>
          · rcases hl : log_action st1 ("Delete cancelled by user: " ++ s) with ⟨rl, st2⟩
            cases rl <;> simp only [hl] <;> rfl

/-! ### The claims -/

/-- Claim C1: every string containing the substring `..`, the character `/`,
or the character `\x5c` is rejected by `validate_filename` with reason
`PathTraversal`, with exactly one log record naming the blocked name
appended before returning and no other state change; in particular such a
string is never rejected as `InvalidFilename`.  (Stated under a working
logger, `st.logErr = none`.) -/

theorem validate_traversal_rejects_and_logs {st : SysState} {s : String}
    (hlog : st.logErr = none)
    (h : (containsSub s ".." || containsSub s "/" || containsSub s "\\") = true) :
    validate_filename st s =
      (.error (.PathTraversal s),
       { st with log := st.log ++ ["Security: Path traversal attempt blocked - " ++ s] }) := by
  rw [validate_traversal_branch h]
  simp [log_action, hlog]

theorem validate_traversal_rejects_and_logs_witness :
    validate_filename st0 "../etc/passwd" =
      (.error (.PathTraversal "../etc/passwd"),
       { st0 with
         log := ["Security: Path traversal attempt blocked - ../etc/passwd"] }) :=
  validate_traversal_rejects_and_logs rfl rfl

/-- Claim C2: for a regular file with byte content `c` whose name passes
validation (and whose `.bak` slot is not a directory), backup, then an
arbitrary mutation of the file's content, then restore, leaves the file's
content equal to `c`, and the restore reports a byte count of `c.length`
in its success log record. -/

theorem backup_mutate_restore_roundtrip {st : SysState} {name : String} {c c2 : List Nat}
    (hlog : st.logErr = none)
    (hok : (validate_filename st name).1 = .ok ())
    (hfile : st.fs name = some (.file c))
    (hbak : st.fs (name ++ ".bak") ≠ some .other) :
    (backup_file st name).1 = .ok () ∧
    (restore_file (mutateContent (backup_file st name).2 name c2) name).1 = .ok () ∧
    (restore_file (mutateContent (backup_file st name).2 name c2) name).2.fs name
      = some (.file c) ∧
    (restore_file (mutateContent (backup_file st name).2 name c2) name).2.log
      = (mutateContent (backup_file st name).2 name c2).log
        ++ ["Restore successful: " ++ (name ++ ".bak") ++ " -> " ++ name
          ++ " (" ++ toString c.length ++ " bytes)"] := by
  rw [backup_success_eval hlog hok hfile hbak]
  set stB : SysState :=
    { st with
      fs := fsSet st.fs (name ++ ".bak") (some (.file c))
      log := st.log ++ ["Backup successful: " ++ name ++ " -> " ++ (name ++ ".bak")
        ++ " (" ++ toString c.length ++ " bytes)"] } with hstB
  have hmfs : (mutateContent stB name c2).fs (name ++ ".bak") = some (.file c) := by
    show fsSet stB.fs name (some (.file c2)) (name ++ ".bak") = some (.file c)
    rw [fsSet_ne _ _ _ (append_bak_ne name)]
    exact fsSet_same _ _ _
  have hmok : (validate_filename (mutateContent stB name c2) name).1 = .ok () := by
    rw [validate_ok_state_free hok (mutateContent stB name c2)]
  have hmlog : (mutateContent stB name c2).logErr = none := hlog
  have hmtgt : (mutateContent stB name c2).fs name = none
      ∨ ∃ d, (mutateContent stB name c2).fs name = some (.file d) := by
    right
    exact ⟨c2, fsSet_same _ _ _⟩
  rw [restore_success_eval hmlog hmok hmfs hmtgt]
  refine ⟨rfl, rfl, ?_, rfl⟩
  exact fsSet_same _ _ _

theorem backup_mutate_restore_roundtrip_witness :
    (backup_file stData "data.txt").1 = .ok () ∧
    (restore_file (mutateContent (backup_file stData "data.txt").2 "data.txt" [9])
      "data.txt").1 = .ok () ∧
    (restore_file (mutateContent (backup_file stData "data.txt").2 "data.txt" [9])
      "data.txt").2.fs "data.txt" = some (.file [1, 2, 3]) ∧
    (restore_file (mutateContent (backup_file stData "data.txt").2 "data.txt" [9])
      "data.txt").2.log
      = (mutateContent (backup_file stData "data.txt").2 "data.txt" [9]).log
        ++ ["Restore successful: " ++ ("data.txt" ++ ".bak") ++ " -> " ++ "data.txt"
          ++ " (" ++ toString ([1, 2, 3] : List Nat).length ++ " bytes)"] :=
  backup_mutate_restore_roundtrip rfl rfl rfl (by decide)

/-- Claim C3, counterexample: the same traversal input is rejected as
`PathTraversal` when the log write succeeds, but as `IoError` when the log
write fails — a logging failure does change the operation's outcome. -/

theorem log_failure_changes_outcome_cex :
    (validate_filename st0 "../secret").1 = .error (.PathTraversal "../secret") ∧
    (validate_filename stBadLog "../secret").1 = .error (.IoError (.other "disk full")) :=
  ⟨rfl, rfl⟩

/-- Claim C3, amended: in the four operations a failure of the logging call
is escalated by the `?` operator into the operation's outcome, surfacing
as `IoError` wrapping the log error (only the session driver in `main`
demotes log failures to warnings): a traversal rejection becomes `IoError`
in `validate_filename`, and the three handlers return `IoError` instead of
`FileNotFound` on a missing file/backup when the failure log write fails. -/

theorem log_failure_escalates_to_ioError {st : SysState} {s t confirm : String} {e : IoErr}
    (hlog : st.logErr = some e)
    (htrav : (containsSub s ".." || containsSub s "/" || containsSub s "\\") = true)
    (hok : (validate_filename st t).1 = .ok ())
    (hmiss : st.fs t = none) (hmiss2 : st.fs (t ++ ".bak") = none) :
    validate_filename st s = (.error (.IoError e), st) ∧
    backup_file st t = (.error (.IoError e), st) ∧
    restore_file st t = (.error (.IoError e), st) ∧
    delete_file st t confirm = (.error (.IoError e), st) := by
  have hv := validate_ok_state_free hok st
  refine ⟨?_, ?_, ?_, ?_⟩
  · rw [validate_traversal_branch htrav]
    simp [log_action, hlog, BackupError.ofIoErr]
  · unfold backup_file
    rw [hv]
    simp only [hmiss, log_action, hlog, BackupError.ofIoErr]
  · unfold restore_file
    rw [hv]
    simp only [hmiss2, log_action, hlog, BackupError.ofIoErr]
  · unfold delete_file
    rw [hv]
    simp only [hmiss, log_action, hlog, BackupError.ofIoErr]

theorem log_failure_escalates_to_ioError_witness :
    validate_filename stBadLog "../secret" = (.error (.IoError (.other "disk full")), stBadLog) ∧
    backup_file stBadLog "data.txt" = (.error (.IoError (.other "disk full")), stBadLog) ∧
    restore_file stBadLog "data.txt" = (.error (.IoError (.other "disk full")), stBadLog) ∧
    delete_file stBadLog "data.txt" "yes" = (.error (.IoError (.other "disk full")), stBadLog) :=
  log_failure_escalates_to_ioError rfl rfl rfl rfl rfl

set_option maxRecDepth 8000 in
/-- Claim C4, counterexample: a 256-character string of slashes is longer
than 255 characters, yet `validate_filename` rejects it as `PathTraversal`,
not `InvalidFilename` — the traversal check at line 62 runs before the
length check at line 76. -/
theorem overlong_slashes_cex :
    255 < slashes256.length ∧
    isInvalidFilenameResult (validate_filename st0 slashes256) = false ∧
    (validate_filename st0 slashes256).1 = .error (.PathTraversal slashes256) := by
  refine ⟨by decide, ?_, ?_⟩ <;> rfl

/-- Claim C4, amended: every string longer than 255 characters that does
not contain `..`, `/`, or `\x5c` is rejected by `validate_filename` with
reason `InvalidFilename` (either as invalid characters or as too long),
with no state change. -/

theorem overlong_nontraversal_rejected_invalid {st : SysState} {s : String}
    (hlen : 255 < s.length)
    (h2 : (containsSub s ".." || containsSub s "/" || containsSub s "\\") = false) :
    ∃ m, validate_filename st s = (.error (.InvalidFilename m), st) := by
  have h1 : s ≠ "" := by
    intro he
    subst he
    simp [String.length] at hlen
  unfold validate_filename
  rw [if_neg h1]
  simp only [h2, Bool.false_eq_true, if_false]
  by_cases h3 : regexIsMatch s = true
  · have hall : s.data.all isValidNameChar = true := by
      simp only [regexIsMatch, Bool.and_eq_true] at h3
      exact h3.2
    have hrl : rustLen s = s.length := rustLen_of_valid hall
    simp only [h3, Bool.not_true, Bool.false_eq_true, if_false, gt_iff_lt]
    rw [if_pos (by omega)]
    exact ⟨_, rfl⟩
  · simp only [Bool.not_eq_true] at h3
    simp [h3]

set_option maxRecDepth 8000 in
theorem overlong_nontraversal_rejected_invalid_witness :
    ∃ m, validate_filename st0 aas256 = (.error (.InvalidFilename m), st0) :=
  overlong_nontraversal_rejected_invalid (by decide) rfl

/-- Claim C5: every string of 1 to 255 characters drawn from the class
`[A-Za-z0-9._-]` with no `..` substring is accepted by `validate_filename`,
with no side effects (the returned state is the input state). -/

theorem validate_accepts_valid_names {st : SysState} {s : String}
    (hchars : s.data.all isValidNameChar = true)
    (hlen1 : 1 ≤ s.length) (hlen2 : s.length ≤ 255)
    (hdd : containsSub s ".." = false) :
    validate_filename st s = (.ok (), st) := by
  have h1 : s ≠ "" := by
    intro he
    subst he
    simp [String.length] at hlen1
  have hs : containsSub s "/" = false :=
    @not_hasSubstr_singleton isValidNameChar '/' rfl s.data hchars
  have hb : containsSub s "\\" = false :=
    @not_hasSubstr_singleton isValidNameChar '\\' rfl s.data hchars
  have h2 : (containsSub s ".." || containsSub s "/" || containsSub s "\\") = false := by
    rw [hdd, hs, hb]
    rfl
  have hne : s.data ≠ [] := by
    intro he
    have : s.length = 0 := by simp [String.length, he]
    omega
  have h3 : regexIsMatch s = true := by
    simp [regexIsMatch, hchars, hne]
  have h4 : rustLen s ≤ 255 := by
    rw [rustLen_of_valid hchars]
    omega
  exact validate_ok_eval h1 h2 h3 h4 st

theorem validate_accepts_valid_names_witness :
    validate_filename st0 "report-2024_v1.txt" = (.ok (), st0) :=
  validate_accepts_valid_names rfl (by decide) (by decide) rfl

/-- Claim C6: for a validated filename that does not exist on disk,
`backup_file` fails with `FileNotFound` and changes nothing but the log
(in particular no `.bak` file is created).  (Stated under a working
logger.) -/

theorem backup_missing_file_notfound {st : SysState} {s : String}
    (hlog : st.logErr = none)
    (hok : (validate_filename st s).1 = .ok ())
    (hmiss : st.fs s = none) :
    backup_file st s =
      (.error (.FileNotFound s),
       { st with log := st.log ++ ["Backup failed: File not found - " ++ s] }) := by
  have hv := validate_ok_state_free hok st
  unfold backup_file
  rw [hv]
  simp only [hmiss, log_action, hlog]

theorem backup_missing_file_notfound_witness :
    backup_file st0 "ghost.txt" =
      (.error (.FileNotFound "ghost.txt"),
       { st0 with log := ["Backup failed: File not found - ghost.txt"] }) :=
  backup_missing_file_notfound rfl rfl rfl

/-- Claim C7: for an existing validated regular file, `delete_file` removes
the file exactly when the operator's response, trimmed and lower-cased, is
`"yes"`; on any other response no deletion occurs, a cancellation record is
logged, and the operation returns success.  (Stated under a working
logger.) -/

theorem delete_confirmation_gate {st : SysState} {s confirm : String} {c : List Nat}
    (hlog : st.logErr = none)
    (hok : (validate_filename st s).1 = .ok ())
    (hfile : st.fs s = some (.file c)) :
    (rustLowercase (rustTrim confirm) = "yes" →
      delete_file st s confirm =
        (.ok (),
         { st with
           fs := fsSet st.fs s none
           log := st.log ++ ["Delete successful: " ++ s] })) ∧
    (rustLowercase (rustTrim confirm) ≠ "yes" →
      delete_file st s confirm =
        (.ok (), { st with log := st.log ++ ["Delete cancelled by user: " ++ s] })) := by
  have hv := validate_ok_state_free hok st
  unfold delete_file
  rw [hv]
  simp only [hfile]
  constructor
  · intro hy
    rw [if_pos hy]
    simp [log_action, hlog]
  · intro hn
    rw [if_neg hn]
    simp [log_action, hlog]

theorem delete_confirmation_gate_witness :
    delete_file stData "data.txt" " YES " =
      (.ok (),
       { stData with
         fs := fsSet stData.fs "data.txt" none
         log := ["Delete successful: data.txt"] }) ∧
    delete_file stData "data.txt" "no" =
      (.ok (), { stData with log := ["Delete cancelled by user: data.txt"] }) :=
  ⟨(@delete_confirmation_gate stData "data.txt" " YES " [1, 2, 3] rfl rfl rfl).1 rfl,
   (@delete_confirmation_gate stData "data.txt" "no" [1, 2, 3] rfl rfl rfl).2 (by decide)⟩

/-- Claim C8: `backup_file` never modifies the source file or any other
entry: whatever the outcome, every filesystem key other than
`<filename>.bak` — in particular the source itself — is unchanged. -/

theorem backup_touches_only_bak {st : SysState} {s k : String}
    (hk : k ≠ s ++ ".bak") :
    (backup_file st s).2.fs k = st.fs k ∧ (backup_file st s).2.fs s = st.fs s :=
  ⟨backup_frame_aux st s hk, backup_frame_aux st s (ne_append_bak s)⟩

theorem backup_touches_only_bak_witness :
    (backup_file st0 "data.txt").2.fs "other.txt" = st0.fs "other.txt" ∧
    (backup_file st0 "data.txt").2.fs "data.txt" = st0.fs "data.txt" :=
  backup_touches_only_bak (by decide)

/-- Claim C9: `restore_file` performs no existence check on the target:
when the backup `<filename>.bak` holds content `c`, restore succeeds and
writes `c` to the target whether the target is absent (it is created) or
an existing regular file (it is overwritten).  (Stated under a working
logger.) -/

theorem restore_no_target_check {st : SysState} {s : String} {c : List Nat}
    (hlog : st.logErr = none)
    (hok : (validate_filename st s).1 = .ok ())
    (hbak : st.fs (s ++ ".bak") = some (.file c))
    (htgt : st.fs s = none ∨ ∃ d, st.fs s = some (.file d)) :
    restore_file st s =
      (.ok (),
       { st with
         fs := fsSet st.fs s (some (.file c))
         log := st.log ++ ["Restore successful: " ++ (s ++ ".bak") ++ " -> " ++ s
           ++ " (" ++ toString c.length ++ " bytes)"] }) := by
  have hv := validate_ok_state_free hok st
  unfold restore_file
  rw [hv]
  simp only [hbak]
  rcases htgt with h | ⟨d, h⟩ <;> simp only [h] <;> simp [log_action, hlog]

theorem restore_no_target_check_witness :
    restore_file stBakOnly "data.txt" =
      (.ok (),
       { stBakOnly with
         fs := fsSet stBakOnly.fs "data.txt" (some (.file [7, 8]))
         log := ["Restore successful: data.txt.bak -> data.txt (2 bytes)"] }) :=
  restore_no_target_check rfl rfl rfl (.inl rfl)

/-- Claim C10: no operation ever returns the `PermissionDenied` error kind:
the variant is never constructed, and underlying I/O failures surface as
`IoError` through the `From` conversion. -/

theorem no_permission_denied (st : SysState) (s confirm : String) :
    isPermDenied (validate_filename st s) = false ∧
    isPermDenied (backup_file st s) = false ∧
    isPermDenied (restore_file st s) = false ∧
    isPermDenied (delete_file st s confirm) = false :=
  ⟨validate_no_pd st s, backup_no_pd st s, restore_no_pd st s, delete_no_pd st s confirm⟩
